import Mathlib

/-!
Verification development for the CCP4 density-map module (`pdb_eda/ccp4.py`).

The Python source is shallowly embedded: byte buffers become `List ℕ`
(each entry one byte), Python `int` becomes `ℤ`, IEEE floats become exact
`ℚ` arithmetic (with `Option ℚ` where a float operation can produce a
non-finite value such as `nan` from `0.0/0.0`), in-place mutation of a
caller's list becomes explicit state passing (the function returns the
list as it is left after the call), and Python exceptions become
`Except`/`Option` results.
-/

/-! ## Byte-level decoding (`DensityHeader.fromFileHeader`, `parse`) -/

/-- Byte order selected for a file, the `'<'` / `'>'` prefix passed to
`struct.unpack` in the source. -/
inductive Endian
  | le
  | be
  deriving DecidableEq, Repr

/-- Value of a 4-byte group read in buffer order `b0 b1 b2 b3` under a byte
order: little-endian makes `b0` least significant, big-endian makes `b0`
most significant. -/
def word32 : Endian → ℕ → ℕ → ℕ → ℕ → ℕ
  | .le, b0, b1, b2, b3 => b0 + 2 ^ 8 * b1 + 2 ^ 16 * b2 + 2 ^ 24 * b3
  | .be, b0, b1, b2, b3 => b3 + 2 ^ 8 * b2 + 2 ^ 16 * b1 + 2 ^ 24 * b0

/-- Byte at offset `i` of a buffer (reads past the end give 0; the source
always slices inside the 1024-byte header). -/
def byteAt (buf : List ℕ) (i : ℕ) : ℕ :=
  buf.getD i 0

/-- The 32-bit word starting at byte offset `i`, read under byte order `e`. -/
def wordAt (e : Endian) (buf : List ℕ) (i : ℕ) : ℕ :=
  word32 e (byteAt buf i) (byteAt buf (i + 1)) (byteAt buf (i + 2)) (byteAt buf (i + 3))

/-- Embeds `int.from_bytes(fileHeader[12:16], byteorder='little')`: the mode
field used for endianness inference. -/
def modeField (buf : List ℕ) : ℕ :=
  wordAt .le buf 12

/-- Embeds `endian = '<' if 0 <= mode <= 6 else '>'`. -/
def inferEndian (buf : List ℕ) : Endian :=
  if 0 ≤ modeField buf ∧ modeField buf ≤ 6 then .le else .be

/-- The 56 fixed 4-byte fields of the header (bytes 0..223), each decoded
with the inferred byte order, as `struct.unpack(headerFormat, fileHeader[:224])`
does.  (Whether a word is then viewed as a signed int, a float, or four
characters does not affect its byte order, so fields are kept as raw 32-bit
words here.) -/
def headerWords (buf : List ℕ) : List ℕ :=
  (List.range 56).map fun k => wordAt (inferEndian buf) buf (4 * k)

/-- The density body decoded as consecutive 4-byte words under byte order `e`,
as `struct.unpack(endian + numBytes * 'f', mapData)` does. -/
def bodyWords (data : List ℕ) (e : Endian) : List ℕ :=
  (List.range (data.length / 4)).map fun k => wordAt e data (4 * k)

/-- Embeds the body decode of `parse`: the density words are read with the
endianness the header decode inferred (`endian = header.endian`). -/
def parseBodyWords (buf data : List ℕ) : List ℕ :=
  bodyWords data (inferEndian buf)

/-- C1: decoding interprets bytes 12-16 as a little-endian 32-bit integer
(the mode); if that value lies in [0,6] the endianness is little-endian and
every 4-byte field of the header and of the density body is decoded
little-endian, otherwise everything is decoded big-endian. -/
theorem endianness_inference (buf data : List ℕ) :
    modeField buf =
      word32 .le (byteAt buf 12) (byteAt buf 13) (byteAt buf 14) (byteAt buf 15) ∧
    (inferEndian buf = .le ↔ 0 ≤ modeField buf ∧ modeField buf ≤ 6) ∧
    (if 0 ≤ modeField buf ∧ modeField buf ≤ 6 then
      headerWords buf = (List.range 56).map (fun k => wordAt .le buf (4 * k)) ∧
        parseBodyWords buf data = bodyWords data .le
    else
      headerWords buf = (List.range 56).map (fun k => wordAt .be buf (4 * k)) ∧
        parseBodyWords buf data = bodyWords data .be) := by
  refine ⟨rfl, ?_, ?_⟩
  · unfold inferEndian
    split <;> simp_all
  · unfold headerWords parseBodyWords inferEndian
    split <;> simp_all

/-! ## The header record (`DensityHeader.__init__`) -/

/-- Header fields used by the verified operations, as assigned in
`DensityHeader.__init__`.  `origin`, `unitVolume`, `orthoMat` and
`deOrthoMat` are computed there with transcendental float operations
(`np.cos`, `np.sqrt`, matrix inversion); they are carried as data of the
record, and the claims treat them as the given outcome of that computation. -/
structure DensityHeader where
  ncrs0 : ℤ
  ncrs1 : ℤ
  ncrs2 : ℤ
  crsStart0 : ℤ
  crsStart1 : ℤ
  crsStart2 : ℤ
  nintervalX : ℤ
  nintervalY : ℤ
  nintervalZ : ℤ
  xlength : ℚ
  ylength : ℚ
  zlength : ℚ
  alpha : ℚ
  beta : ℚ
  gamma : ℚ
  col2xyz : ℤ
  row2xyz : ℤ
  sec2xyz : ℤ
  symmetryBytes : ℤ
  origin0 : ℚ
  origin1 : ℚ
  origin2 : ℚ
  unitVolume : ℚ
  orthoMat : Fin 3 → Fin 3 → ℚ
  deOrthoMat : Fin 3 → Fin 3 → ℚ

/-- Python list read `l[i]` for an integer index: a negative index counts
from the end.  (An index out of range raises in Python; the claims only
exercise in-range reads, out-of-range reads default to 0 here.) -/
def pyGetI (l : List ℤ) (i : ℤ) : ℤ :=
  if 0 ≤ i then l.getD i.toNat 0 else l.getD (l.length - (-i).toNat) 0

/-- Python list write `l[i] = v` for an integer index, negative indices
counting from the end. -/
def pySetIdx (l : List ℤ) (i : ℤ) (v : ℤ) : List ℤ :=
  if 0 ≤ i then l.set i.toNat v else l.set (l.length - (-i).toNat) v

/-- Embeds `self.ncrs` (column, row, section extents). -/
def ncrsL (h : DensityHeader) : List ℤ :=
  [h.ncrs0, h.ncrs1, h.ncrs2]

/-- Embeds `self.crsStart`. -/
def crsStartL (h : DensityHeader) : List ℤ :=
  [h.crsStart0, h.crsStart1, h.crsStart2]

/-- Embeds `self.xyzLength = [xlength, ylength, zlength]`. -/
def xyzLengthL (h : DensityHeader) : List ℚ :=
  [h.xlength, h.ylength, h.zlength]

/-- Embeds `self.xyzInterval = [nintervalX, nintervalY, nintervalZ]`. -/
def xyzIntervalL (h : DensityHeader) : List ℤ :=
  [h.nintervalX, h.nintervalY, h.nintervalZ]

/-- Embeds `self.gridLength = [x/y for x, y in zip(xyzLength, xyzInterval)]`.
(Division by a zero interval raises in Python; here it gives 0, and the
claims that depend on a grid spacing assume it is nonzero.) -/
def gridLengthL (h : DensityHeader) : List ℚ :=
  List.zipWith (fun x y => x / (y : ℚ)) (xyzLengthL h) (xyzIntervalL h)

/-- Embeds `self.mapSize = ncrs[0] * ncrs[1] * ncrs[2] * 4`. -/
def mapSize (h : DensityHeader) : ℤ :=
  h.ncrs0 * h.ncrs1 * h.ncrs2 * 4

/-- Embeds the `self.map2xyz` computation: a `[0,0,0]` list receiving
`indices[col2xyz-1] = 0; indices[row2xyz-1] = 1; indices[sec2xyz-1] = 2`. -/
def map2xyz (h : DensityHeader) : List ℤ :=
  pySetIdx (pySetIdx (pySetIdx [0, 0, 0] (h.col2xyz - 1) 0) (h.row2xyz - 1) 1)
    (h.sec2xyz - 1) 2

/-- Embeds `self.map2crs = [col2xyz - 1, row2xyz - 1, sec2xyz - 1]`. -/
def map2crs (h : DensityHeader) : List ℤ :=
  [h.col2xyz - 1, h.row2xyz - 1, h.sec2xyz - 1]

/-- Embeds `self.crsInterval = [xyzInterval[map2crs[ind]] for ind in range(3)]`. -/
def crsIntervalL (h : DensityHeader) : List ℤ :=
  (map2crs h).map fun j => pyGetI (xyzIntervalL h) j

/-- Embeds `self.origin` as a list (it is produced by `_calculateOrigin`). -/
def originL (h : DensityHeader) : List ℚ :=
  [h.origin0, h.origin1, h.origin2]

/-! ## Coordinate validation with periodic wrap (`DensityHeader.validCRS`) -/

/-- One pass of the `validCRS` loop body for the axes still to process.
The loop mutates `crsCoord` in place and can return `False` early; the
embedding threads the list state and returns it with the boolean, the
returned list being the state in which the caller's list is left. -/
def validCRSAux (h : DensityHeader) : List ℕ → List ℤ → List ℤ × Bool
  | [], crs => (crs, true)
  | ind :: rest, crs =>
    let c := crs.getD ind 0
    let n := (ncrsL h).getD ind 0
    let i := (crsIntervalL h).getD ind 0
    let crs1 := if c < 0 ∨ n ≤ c then crs.set ind (c - Int.fdiv c i * i) else crs
    let c1 := crs1.getD ind 0
    if n ≤ c1 ∧ c1 < i then (crs1, false) else validCRSAux h rest crs1

/-- Embeds `DensityHeader.validCRS` (`for ind in range(3)`), returning the
validity flag together with the mutated coordinate list.
`int(np.floor(c / interval) * interval)` is exactly `Int.fdiv c interval * interval`
for integer `c` and nonzero `interval`. -/
def validCRS (h : DensityHeader) (crsCoord : List ℤ) : List ℤ × Bool :=
  validCRSAux h [0, 1, 2] crsCoord

/-- Wrapped value of component `c` on axis `ind`, exactly the assignment the
source performs when `c` lies outside `[0, extent)` (and the identity
otherwise). -/
def wrapCRS (h : DensityHeader) (ind : ℕ) (c : ℤ) : ℤ :=
  if c < 0 ∨ (ncrsL h).getD ind 0 ≤ c then
    c - Int.fdiv c ((crsIntervalL h).getD ind 0) * ((crsIntervalL h).getD ind 0)
  else c

/-- Axis `ind` declares the (wrapped) component invalid when it falls in
`[extent, interval)`, the early-`False` test of `validCRS`. -/
def invalidAxis (h : DensityHeader) (ind : ℕ) (c : ℤ) : Prop :=
  (ncrsL h).getD ind 0 ≤ wrapCRS h ind c ∧ wrapCRS h ind c < (crsIntervalL h).getD ind 0

instance (h : DensityHeader) (ind : ℕ) (c : ℤ) : Decidable (invalidAxis h ind c) := by
  unfold invalidAxis
  exact inferInstance

/-! ## The density matrix (`DensityMatrix`) -/

/-- Density data of a map: the header and the flat decoded float list; the
3-d view `self.density` reshapes it with shape `(ncrs[2], ncrs[1], ncrs[0])`
in C order. -/
structure DensityMatrix where
  header : DensityHeader
  densityArray : List ℚ

/-- Numpy single-axis index resolution for an axis of length `n`: a negative
index has `n` added, and the result must lie in `[0, n)` (otherwise numpy
raises `IndexError`, `none` here). -/
def npAxisIndex (n i : ℤ) : Option ℕ :=
  let j := if i < 0 then n + i else i
  if 0 ≤ j ∧ j < n then some j.toNat else none

/-- Embeds the numpy element read `self.density[crs[2], crs[1], crs[0]]` on the
reshaped array: C-order flat offset `i2 * (ncrs1 * ncrs0) + i1 * ncrs0 + i0`. -/
def densityAt (m : DensityMatrix) (crs : List ℤ) : Option ℚ := do
  let i2 ← npAxisIndex m.header.ncrs2 (crs.getD 2 0)
  let i1 ← npAxisIndex m.header.ncrs1 (crs.getD 1 0)
  let i0 ← npAxisIndex m.header.ncrs0 (crs.getD 0 0)
  m.densityArray.get? (i2 * (m.header.ncrs1.toNat * m.header.ncrs0.toNat) +
    i1 * m.header.ncrs0.toNat + i0)

/-- Total accessor for the same element (default 0), used to state what value
a successful read returns. -/
def densityValD (m : DensityMatrix) (crs : List ℤ) : ℚ :=
  (densityAt m crs).getD 0

/-- Embeds `DensityMatrix.getPointDensityFromCrs` for a list argument:
`self.density[crs[2], crs[1], crs[0]] if self.header.validCRS(crs) else 0`.
The result pairs the density (`none` for an out-of-bounds read, which raises
in Python) with the state the caller's list is left in. -/
def getPointDensityFromCrs (m : DensityMatrix) (crsCoord : List ℤ) :
    Option ℚ × List ℤ :=
  let r := validCRS m.header crsCoord
  (if r.2 then densityAt m r.1 else some 0, r.1)

/-! ## C2: the point-density query -/

theorem validCRS_eq (h : DensityHeader) (a b c : ℤ) :
    validCRS h [a, b, c] =
      if invalidAxis h 0 a then ([wrapCRS h 0 a, b, c], false)
      else if invalidAxis h 1 b then ([wrapCRS h 0 a, wrapCRS h 1 b, c], false)
      else if invalidAxis h 2 c then
        ([wrapCRS h 0 a, wrapCRS h 1 b, wrapCRS h 2 c], false)
      else ([wrapCRS h 0 a, wrapCRS h 1 b, wrapCRS h 2 c], true) := by
  unfold validCRS
  simp only [validCRSAux]
  simp only [List.getD_cons_zero, List.getD_cons_succ]
  by_cases hw0 : a < 0 ∨ (ncrsL h).getD 0 0 ≤ a <;>
    by_cases hw1 : b < 0 ∨ (ncrsL h).getD 1 0 ≤ b <;>
      by_cases hw2 : c < 0 ∨ (ncrsL h).getD 2 0 ≤ c <;>
        simp only [invalidAxis, wrapCRS, hw0, hw1, hw2, if_true, if_false, ite_true, ite_false,
          List.set_cons_zero, List.set_cons_succ, List.getD_cons_zero, List.getD_cons_succ] <;>
        split_ifs <;> simp_all

theorem wrapCRS_mem (h : DensityHeader) (ind : ℕ) (x : ℤ)
    (hI : 0 < (crsIntervalL h).getD ind 0) (hv : ¬ invalidAxis h ind x) :
    0 ≤ wrapCRS h ind x ∧ wrapCRS h ind x < (ncrsL h).getD ind 0 := by
  unfold invalidAxis at hv
  unfold wrapCRS at hv ⊢
  by_cases hc : x < 0 ∨ (ncrsL h).getD ind 0 ≤ x
  · rw [if_pos hc] at hv ⊢
    have hm : x - Int.fdiv x ((crsIntervalL h).getD ind 0) * ((crsIntervalL h).getD ind 0) =
        Int.fmod x ((crsIntervalL h).getD ind 0) := by
      rw [Int.fmod_def]
      ring
    rw [hm] at hv ⊢
    have h1 : 0 ≤ Int.fmod x ((crsIntervalL h).getD ind 0) := Int.fmod_nonneg' x hI
    have h2 : Int.fmod x ((crsIntervalL h).getD ind 0) < (crsIntervalL h).getD ind 0 :=
      Int.fmod_lt_of_pos x hI
    rcases not_and_or.mp hv with h3 | h3
    · exact ⟨h1, not_le.mp h3⟩
    · exact absurd h2 h3
  · rw [if_neg hc] at hv ⊢
    push_neg at hc
    exact ⟨hc.1, hc.2⟩

theorem densityAt_pos (m : DensityMatrix) (w0 w1 w2 : ℤ)
    (hlen : m.densityArray.length =
      m.header.ncrs2.toNat * (m.header.ncrs1.toNat * m.header.ncrs0.toNat))
    (h0 : 0 ≤ w0 ∧ w0 < m.header.ncrs0) (h1 : 0 ≤ w1 ∧ w1 < m.header.ncrs1)
    (h2 : 0 ≤ w2 ∧ w2 < m.header.ncrs2) :
    densityAt m [w0, w1, w2] = some (densityValD m [w0, w1, w2]) := by
  have e0 : npAxisIndex m.header.ncrs0 w0 = some w0.toNat := by
    unfold npAxisIndex
    simp only [if_neg (by omega : ¬ w0 < 0)]
    rw [if_pos]
    omega
  have e1 : npAxisIndex m.header.ncrs1 w1 = some w1.toNat := by
    unfold npAxisIndex
    simp only [if_neg (by omega : ¬ w1 < 0)]
    rw [if_pos]
    omega
  have e2 : npAxisIndex m.header.ncrs2 w2 = some w2.toNat := by
    unfold npAxisIndex
    simp only [if_neg (by omega : ¬ w2 < 0)]
    rw [if_pos]
    omega
  have hb0 : w0.toNat < m.header.ncrs0.toNat := by omega
  have hb1 : w1.toNat < m.header.ncrs1.toNat := by omega
  have hb2 : w2.toNat < m.header.ncrs2.toNat := by omega
  have hidx : w2.toNat * (m.header.ncrs1.toNat * m.header.ncrs0.toNat) +
      w1.toNat * m.header.ncrs0.toNat + w0.toNat < m.densityArray.length := by
    rw [hlen]
    calc w2.toNat * (m.header.ncrs1.toNat * m.header.ncrs0.toNat) +
        w1.toNat * m.header.ncrs0.toNat + w0.toNat
        < w2.toNat * (m.header.ncrs1.toNat * m.header.ncrs0.toNat) +
          (w1.toNat + 1) * m.header.ncrs0.toNat := by
          rw [Nat.succ_mul]
          omega
      _ ≤ w2.toNat * (m.header.ncrs1.toNat * m.header.ncrs0.toNat) +
          m.header.ncrs1.toNat * m.header.ncrs0.toNat :=
          Nat.add_le_add_left (Nat.mul_le_mul_right _ hb1) _
      _ = (w2.toNat + 1) * (m.header.ncrs1.toNat * m.header.ncrs0.toNat) := by
          rw [Nat.succ_mul]
      _ ≤ m.header.ncrs2.toNat * (m.header.ncrs1.toNat * m.header.ncrs0.toNat) :=
          Nat.mul_le_mul_right _ hb2
  have hA : densityAt m [w0, w1, w2] =
      m.densityArray.get? (w2.toNat * (m.header.ncrs1.toNat * m.header.ncrs0.toNat) +
        w1.toNat * m.header.ncrs0.toNat + w0.toNat) := by
    simp [densityAt, e0, e1, e2]
  unfold densityValD
  rw [hA, List.get?_eq_get hidx]
  simp

/-- C2: for every crs coordinate, the point-density query first wraps each
component lying outside `[0, extent)` by subtracting
`floor(coord/interval)*interval` on that axis; it returns 0 if any wrapped
component falls in `[extent, interval)` on its axis, and otherwise returns
the grid value stored at the wrapped coordinate — and in all cases it
returns a value, never an error.  (The mapped interval counts are assumed
positive and the flat array to have the declared size, as for a decoded map.) -/
theorem getPointDensityFromCrs_wrap_policy (m : DensityMatrix) (a b c : ℤ)
    (hI0 : 0 < (crsIntervalL m.header).getD 0 0)
    (hI1 : 0 < (crsIntervalL m.header).getD 1 0)
    (hI2 : 0 < (crsIntervalL m.header).getD 2 0)
    (hlen : m.densityArray.length =
      m.header.ncrs2.toNat * (m.header.ncrs1.toNat * m.header.ncrs0.toNat)) :
    (getPointDensityFromCrs m [a, b, c]).1 =
      some (if invalidAxis m.header 0 a ∨ invalidAxis m.header 1 b ∨ invalidAxis m.header 2 c
        then 0
        else densityValD m
          [wrapCRS m.header 0 a, wrapCRS m.header 1 b, wrapCRS m.header 2 c]) := by
  unfold getPointDensityFromCrs
  rw [validCRS_eq]
  by_cases i0 : invalidAxis m.header 0 a
  · simp [i0]
  by_cases i1 : invalidAxis m.header 1 b
  · simp [i0, i1]
  by_cases i2 : invalidAxis m.header 2 c
  · simp [i0, i1, i2]
  have b0 := wrapCRS_mem m.header 0 a hI0 i0
  have b1 := wrapCRS_mem m.header 1 b hI1 i1
  have b2 := wrapCRS_mem m.header 2 c hI2 i2
  simp only [ncrsL, List.getD_cons_zero, List.getD_cons_succ] at b0 b1 b2
  simp only [i0, i1, i2, if_false, ite_false, or_self, or_false, false_or]
  exact densityAt_pos m _ _ _ hlen b0 b1 b2

/-- Concrete well-formed header used by the witnesses: extents (2,2,2),
interval counts (3,3,3), cell edges (3,3,3) (grid spacing 1), right angles,
identity axis mapping, origin 0. -/
def baseHeader : DensityHeader where
  ncrs0 := 2
  ncrs1 := 2
  ncrs2 := 2
  crsStart0 := 0
  crsStart1 := 0
  crsStart2 := 0
  nintervalX := 3
  nintervalY := 3
  nintervalZ := 3
  xlength := 3
  ylength := 3
  zlength := 3
  alpha := 90
  beta := 90
  gamma := 90
  col2xyz := 1
  row2xyz := 2
  sec2xyz := 3
  symmetryBytes := 0
  origin0 := 0
  origin1 := 0
  origin2 := 0
  unitVolume := 1
  orthoMat := fun _ _ => 0
  deOrthoMat := fun _ _ => 0

/-- Concrete density matrix over `baseHeader` with the eight voxel values
1..8 in flat C order. -/
def exampleMatrix : DensityMatrix where
  header := baseHeader
  densityArray := [1, 2, 3, 4, 5, 6, 7, 8]

theorem getPointDensityFromCrs_wrap_policy_witness :
    0 < (crsIntervalL exampleMatrix.header).getD 0 0 ∧
    0 < (crsIntervalL exampleMatrix.header).getD 1 0 ∧
    0 < (crsIntervalL exampleMatrix.header).getD 2 0 ∧
    exampleMatrix.densityArray.length =
      exampleMatrix.header.ncrs2.toNat *
        (exampleMatrix.header.ncrs1.toNat * exampleMatrix.header.ncrs0.toNat) ∧
    (getPointDensityFromCrs exampleMatrix [4, 0, 1]).1 =
      some (if invalidAxis exampleMatrix.header 0 4 ∨ invalidAxis exampleMatrix.header 1 0 ∨
          invalidAxis exampleMatrix.header 2 1
        then 0
        else densityValD exampleMatrix
          [wrapCRS exampleMatrix.header 0 4, wrapCRS exampleMatrix.header 1 0,
            wrapCRS exampleMatrix.header 2 1]) :=
  ⟨by decide, by decide, by decide, by decide,
    getPointDensityFromCrs_wrap_policy exampleMatrix 4 0 1 (by decide) (by decide) (by decide)
      (by decide)⟩

/-! ## C10: in-place mutation of the caller's coordinate list -/

/-- Concrete matrix whose mapped interval counts (4,4,4) exceed the extents
(2,2,2), so that a component in `[extent, interval)` wraps to itself. -/
def wrapIdentityMatrix : DensityMatrix where
  header := { baseHeader with nintervalX := 4, nintervalY := 4, nintervalZ := 4 }
  densityArray := [1, 2, 3, 4, 5, 6, 7, 8]

/-- C10 counterexample: the coordinate `[2,0,0]` has its first component
outside `[0, extent) = [0,2)`, yet the point-density query leaves the
caller's list exactly as it was (`2 - floor(2/4)*4 = 2`), contradicting the
claim that the argument is not left unchanged. -/
theorem getPointDensityFromCrs_mutation_counterexample :
    ¬ (0 ≤ (2 : ℤ) ∧ (2 : ℤ) < wrapIdentityMatrix.header.ncrs0) ∧
    (getPointDensityFromCrs wrapIdentityMatrix [2, 0, 0]).2 = [2, 0, 0] := by
  decide

/-- C10 amended: the query does mutate the caller's list in place — the
first component, when outside `[0, extent)`, is overwritten with its wrapped
value `c - floor(c/interval)*interval` — but the argument is only guaranteed
to differ from its original value when that wrapped value differs from the
original component (wrapping is the identity on `[0, interval)`, e.g. on
`[extent, interval)`). -/
theorem getPointDensityFromCrs_mutation (m : DensityMatrix) (a b c : ℤ)
    (ha : a < 0 ∨ (ncrsL m.header).getD 0 0 ≤ a) :
    (getPointDensityFromCrs m [a, b, c]).2.getD 0 0 =
      a - Int.fdiv a ((crsIntervalL m.header).getD 0 0) * ((crsIntervalL m.header).getD 0 0) ∧
    (a - Int.fdiv a ((crsIntervalL m.header).getD 0 0) * ((crsIntervalL m.header).getD 0 0) ≠ a →
      (getPointDensityFromCrs m [a, b, c]).2 ≠ [a, b, c]) := by
  have hw : wrapCRS m.header 0 a =
      a - Int.fdiv a ((crsIntervalL m.header).getD 0 0) * ((crsIntervalL m.header).getD 0 0) := by
    unfold wrapCRS
    rw [if_pos ha]
  simp only [getPointDensityFromCrs]
  rw [validCRS_eq]
  refine ⟨?_, ?_⟩
  · split_ifs <;> simp [hw]
  · intro hne
    split_ifs <;> simp_all [hw]

theorem getPointDensityFromCrs_mutation_witness :
    ((-1 : ℤ) < 0 ∨ (ncrsL wrapIdentityMatrix.header).getD 0 0 ≤ -1) ∧
    ((getPointDensityFromCrs wrapIdentityMatrix [-1, 0, 0]).2.getD 0 0 =
      -1 - Int.fdiv (-1) ((crsIntervalL wrapIdentityMatrix.header).getD 0 0) *
        ((crsIntervalL wrapIdentityMatrix.header).getD 0 0) ∧
    (-1 - Int.fdiv (-1) ((crsIntervalL wrapIdentityMatrix.header).getD 0 0) *
        ((crsIntervalL wrapIdentityMatrix.header).getD 0 0) ≠ -1 →
      (getPointDensityFromCrs wrapIdentityMatrix [-1, 0, 0]).2 ≠ [-1, 0, 0])) :=
  ⟨by decide, getPointDensityFromCrs_mutation wrapIdentityMatrix (-1) 0 0 (by decide)⟩

/-! ## Coordinate transforms (`crs2xyzCoord`, `xyz2crsCoord`) -/

/-- Python list read for a float list, negative indices counting from the
end (out of range defaults to 0, where Python would raise). -/
def pyGetQ (l : List ℚ) (i : ℤ) : ℚ :=
  if 0 ≤ i then l.getD i.toNat 0 else l.getD (l.length - (-i).toNat) 0

/-- Python 3 `int(round(x))` on an exact value: round half to even
(banker's rounding), then truncation (a no-op on the already-integral
result). -/
def pyRound (q : ℚ) : ℤ :=
  let f := Int.floor q
  let r := q - f
  if r < 1 / 2 then f
  else if 1 / 2 < r then f + 1
  else if f % 2 = 0 then f else f + 1

/-- Product of a 3x3 matrix with the column `(v0, v1, v2)`, the `np.dot`
of the two coordinate transforms, as a list. -/
def orthoMulVec (a : Fin 3 → Fin 3 → ℚ) (v0 v1 v2 : ℚ) : List ℚ :=
  [a 0 0 * v0 + a 0 1 * v1 + a 0 2 * v2,
   a 1 0 * v0 + a 1 1 * v1 + a 1 2 * v2,
   a 2 0 * v0 + a 2 1 * v1 + a 2 2 * v2]

/-- Fractional coordinate `(crsCoord[map2xyz[j]] + crsStart[map2xyz[j]]) / xyzInterval[j]`
fed to the orthogonalization matrix on the triclinic path. -/
def fracCoordVec (h : DensityHeader) (crsCoord : List ℤ) (j : ℕ) : ℚ :=
  ((pyGetI crsCoord (pyGetI (map2xyz h) j) + pyGetI (crsStartL h) (pyGetI (map2xyz h) j) : ℤ) : ℚ) /
    (((xyzIntervalL h).getD j 0 : ℤ) : ℚ)

/-- Embeds `DensityHeader.crs2xyzCoord`: the orthogonal fast path when all
three angles equal 90 (the chained `alpha == beta == gamma == 90`),
otherwise the orthogonalization-matrix path. -/
def crs2xyzCoord (h : DensityHeader) (crsCoord : List ℤ) : List ℚ :=
  if h.alpha = h.beta ∧ h.beta = h.gamma ∧ h.gamma = 90 then
    (List.range 3).map fun (i : ℕ) =>
      (pyGetI crsCoord (pyGetI (map2xyz h) (i : ℤ)) : ℚ) * (gridLengthL h).getD i 0 +
        (originL h).getD i 0
  else
    orthoMulVec h.orthoMat (fracCoordVec h crsCoord 0) (fracCoordVec h crsCoord 1)
      (fracCoordVec h crsCoord 2)

/-- Embeds `DensityHeader.xyz2crsCoord`: grid position by rounded division
on the orthogonal path (or de-orthogonalization on the triclinic path),
then permutation back into column/row/section order. -/
def xyz2crsCoord (h : DensityHeader) (xyzCoord : List ℚ) : List ℤ :=
  let crsGridPos : List ℤ :=
    if h.alpha = h.beta ∧ h.beta = h.gamma ∧ h.gamma = 90 then
      (List.range 3).map fun i =>
        pyRound ((xyzCoord.getD i 0 - (originL h).getD i 0) / (gridLengthL h).getD i 0)
    else
      (List.range 3).map fun (i : ℕ) =>
        pyRound ((orthoMulVec h.deOrthoMat (xyzCoord.getD 0 0) (xyzCoord.getD 1 0)
            (xyzCoord.getD 2 0)).getD i 0 * (((xyzIntervalL h).getD i 0 : ℤ) : ℚ)) -
          pyGetI (crsStartL h) (pyGetI (map2xyz h) (i : ℤ))
  (List.range 3).map fun i => pyGetI crsGridPos (pyGetI (map2crs h) (i : ℤ))

theorem pyRound_int (z : ℤ) : pyRound (z : ℚ) = z := by
  unfold pyRound
  rw [Int.floor_intCast]
  norm_num

theorem pyRound_mul_div (z : ℤ) (g : ℚ) (hg : g ≠ 0) :
    pyRound ((z : ℚ) * g / g) = z := by
  rw [mul_div_assoc, div_self hg, mul_one, pyRound_int]

/-- C3: for every header with all three cell angles equal to 90 degrees and
every integer grid coordinate within the declared extents, converting to
physical xyz coordinates and back yields exactly the same coordinate.
(The header is assumed well formed as the data model requires: the three
axis-mapping fields are a permutation of {1,2,3}, and the grid spacings,
which the conversion divides by, are nonzero.) -/
theorem xyz2crs_crs2xyz_roundtrip (h : DensityHeader) (a b c : ℤ)
    (h90 : h.alpha = 90 ∧ h.beta = 90 ∧ h.gamma = 90)
    (hcol : h.col2xyz = 1 ∨ h.col2xyz = 2 ∨ h.col2xyz = 3)
    (hrow : h.row2xyz = 1 ∨ h.row2xyz = 2 ∨ h.row2xyz = 3)
    (hsec : h.sec2xyz = 1 ∨ h.sec2xyz = 2 ∨ h.sec2xyz = 3)
    (hd1 : h.col2xyz ≠ h.row2xyz) (hd2 : h.col2xyz ≠ h.sec2xyz) (hd3 : h.row2xyz ≠ h.sec2xyz)
    (hg0 : (gridLengthL h).getD 0 0 ≠ 0) (hg1 : (gridLengthL h).getD 1 0 ≠ 0)
    (hg2 : (gridLengthL h).getD 2 0 ≠ 0)
    (hin : 0 ≤ a ∧ a < h.ncrs0 ∧ 0 ≤ b ∧ b < h.ncrs1 ∧ 0 ≤ c ∧ c < h.ncrs2) :
    xyz2crsCoord h (crs2xyzCoord h [a, b, c]) = [a, b, c] := by
  have r3 : List.range 3 = [0, 1, 2] := rfl
  rcases hcol with hc | hc | hc <;> rcases hrow with hr | hr | hr <;>
    rcases hsec with hs | hs | hs <;>
    first
      | (exfalso; omega)
      | (simp +decide [crs2xyzCoord, xyz2crsCoord, map2xyz, map2crs, pySetIdx, pyGetI,
            hc, hr, hs, h90.1, h90.2.1, h90.2.2, r3] <;>
          refine ⟨?_, ?_, ?_⟩ <;> apply pyRound_mul_div <;>
            first
              | simpa using hg0
              | simpa using hg1
              | simpa using hg2)

theorem xyz2crs_crs2xyz_roundtrip_witness :
    (baseHeader.alpha = 90 ∧ baseHeader.beta = 90 ∧ baseHeader.gamma = 90) ∧
    (gridLengthL baseHeader).getD 0 0 ≠ 0 ∧
    (0 ≤ (1 : ℤ) ∧ (1 : ℤ) < baseHeader.ncrs0 ∧ 0 ≤ (0 : ℤ) ∧ (0 : ℤ) < baseHeader.ncrs1 ∧
      0 ≤ (1 : ℤ) ∧ (1 : ℤ) < baseHeader.ncrs2) ∧
    xyz2crsCoord baseHeader (crs2xyzCoord baseHeader [1, 0, 1]) = [1, 0, 1] :=
  ⟨by decide, by simp [gridLengthL, xyzLengthL, xyzIntervalL, baseHeader], by decide,
    xyz2crs_crs2xyz_roundtrip baseHeader 1 0 1 (by decide) (Or.inl rfl) (Or.inr (Or.inl rfl))
      (Or.inr (Or.inr rfl)) (by decide) (by decide) (by decide)
      (by simp [gridLengthL, xyzLengthL, xyzIntervalL, baseHeader])
      (by simp [gridLengthL, xyzLengthL, xyzIntervalL, baseHeader])
      (by simp [gridLengthL, xyzLengthL, xyzIntervalL, baseHeader]) (by decide)⟩

/-! ## The post-parse fix-ups and size check of `parse` -/

theorem intLandZeroLeft (n : ℤ) : Int.land 0 n = 0 := by
  cases n with
  | ofNat m =>
    show ((0 &&& m : ℕ) : ℤ) = 0
    simp
  | negSucc m =>
    show ((Nat.ldiff 0 m : ℕ) : ℤ) = 0
    simp [Nat.ldiff, Nat.bitwise_zero_left]

theorem intLorZeroLeft (n : ℤ) : Int.lor 0 n = n := by
  cases n with
  | ofNat m =>
    show ((0 ||| m : ℕ) : ℤ) = Int.ofNat m
    simp
  | negSucc m =>
    show Int.negSucc (Nat.ldiff m 0) = Int.negSucc m
    simp [Nat.ldiff, Nat.bitwise_zero_right]

/-- Embeds the X-axis interval fix-up of `parse`.  Python's `&` binds
tighter than `==`/`>`, so `header.nintervalX == 0 & header.ncrs[0] > 0`
is the chained comparison
`(nintervalX == (0 & ncrs[0])) and ((0 & ncrs[0]) > 0)`. -/
def fixIntervalX (h : DensityHeader) : DensityHeader :=
  if h.nintervalX = Int.land 0 h.ncrs0 ∧ Int.land 0 h.ncrs0 > 0 then
    { h with nintervalX := h.ncrs0 - 1 }
  else h

/-- Embeds the Y-axis interval fix-up of `parse` (same operator binding). -/
def fixIntervalY (h : DensityHeader) : DensityHeader :=
  if h.nintervalY = Int.land 0 h.ncrs1 ∧ Int.land 0 h.ncrs1 > 0 then
    { h with nintervalY := h.ncrs1 - 1 }
  else h

/-- Embeds the Z-axis interval fix-up of `parse` (same operator binding). -/
def fixIntervalZ (h : DensityHeader) : DensityHeader :=
  if h.nintervalZ = Int.land 0 h.ncrs2 ∧ Int.land 0 h.ncrs2 > 0 then
    { h with nintervalZ := h.ncrs2 - 1 }
  else h

/-- The three interval fix-ups in the order `parse` applies them. -/
def fixIntervals (h : DensityHeader) : DensityHeader :=
  fixIntervalZ (fixIntervalY (fixIntervalX h))

/-- Header whose X interval count is 0 while its X extent is 2, the
configuration the interval fix-up is meant to repair. -/
def zeroIntervalHeader : DensityHeader :=
  { baseHeader with nintervalX := 0 }

/-- C5: the decoder is claimed to substitute `interval = extent - 1`
whenever an axis's interval count is 0 and its extent is positive.  The
code never does: `nintervalX == 0 & header.ncrs[0] > 0` parses as
`nintervalX == (0 & ncrs[0]) > 0`, a chained comparison whose second
conjunct `0 > 0` is false, so the guard never fires and the parsed header
is always returned unchanged — in particular on a header with interval 0
and extent 2. -/
theorem interval_default_fix_never_fires :
    (∀ h : DensityHeader, fixIntervals h = h) ∧
    (fixIntervals zeroIntervalHeader).nintervalX = 0 ∧
    zeroIntervalHeader.nintervalX = 0 ∧ zeroIntervalHeader.ncrs0 = 2 := by
  have hfix : ∀ h : DensityHeader, fixIntervals h = h := by
    intro h
    unfold fixIntervals fixIntervalX fixIntervalY fixIntervalZ
    simp only [intLandZeroLeft]
    simp
  refine ⟨hfix, ?_, rfl, rfl⟩
  rw [hfix]
  rfl

/-- Embeds the axis-mapping fix-up of `parse`.  Python parses
`header.col2xyz == 0 & header.row2xyz == 0 & header.sec2xyz == 0` as the
chained comparison
`(col2xyz == (0 & row2xyz)) and ((0 & row2xyz) == (0 & sec2xyz)) and ((0 & sec2xyz) == 0)`. -/
def fixMapping (h : DensityHeader) : DensityHeader :=
  if h.col2xyz = Int.land 0 h.row2xyz ∧ Int.land 0 h.row2xyz = Int.land 0 h.sec2xyz ∧
      Int.land 0 h.sec2xyz = 0 then
    { h with col2xyz := 1, row2xyz := 2, sec2xyz := 3 }
  else h

/-- Header with `col2xyz = 0` but nonzero `row2xyz`, `sec2xyz`: not all
three mapping fields are zero, so the claim says it must be kept unchanged. -/
def mappingBugHeader : DensityHeader :=
  { baseHeader with col2xyz := 0, row2xyz := 5, sec2xyz := 7 }

/-- C6: the claim says the axis mapping is replaced by (1,2,3) if and only
if all three fields are 0.  Because `0 & row2xyz` and `0 & sec2xyz` are 0,
the code's chained guard degenerates to `col2xyz == 0` alone, so the code
replaces the mapping whenever `col2xyz = 0` — including on the header
`(0, 5, 7)` whose nonzero fields the claim requires to be kept unchanged. -/
theorem axis_mapping_fix_fires_on_col_only :
    (∀ h : DensityHeader, fixMapping h =
      if h.col2xyz = 0 then { h with col2xyz := 1, row2xyz := 2, sec2xyz := 3 } else h) ∧
    (fixMapping mappingBugHeader).col2xyz = 1 ∧
    (fixMapping mappingBugHeader).row2xyz = 2 ∧
    (fixMapping mappingBugHeader).sec2xyz = 3 ∧
    mappingBugHeader.row2xyz = 5 ∧ mappingBugHeader.sec2xyz = 7 := by
  have hchar : ∀ h : DensityHeader, fixMapping h =
      if h.col2xyz = 0 then { h with col2xyz := 1, row2xyz := 2, sec2xyz := 3 } else h := by
    intro h
    unfold fixMapping
    simp only [intLandZeroLeft]
    simp
  refine ⟨hchar, ?_, ?_, ?_, rfl, rfl⟩ <;> rw [hchar] <;> rfl

/-- Identities of the four size assertions of `parse`, in source order. -/
inductive SizeError
  | suspiciousSymmetry
  | noMapData
  | incompleteData
  | largerThanExpected
  deriving DecidableEq, Repr

/-- Embeds the file-size sanity check of `parse` on the byte count left
after the 1024-byte header.  Python's `|` binds tighter than `==`/`!=`,
so `header.symmetryBytes == 0 | len(dataBuffer) != header.mapSize` is the
chained comparison `(symmetryBytes == (0 | len)) and ((0 | len) != mapSize)`,
and correspondingly for the second assertion; an assertion whose condition
is false raises its error. -/
def sizeCheck (h : DensityHeader) (dataLen : ℤ) : Except SizeError Unit :=
  if dataLen ≠ h.symmetryBytes + mapSize h then
    if ¬ (h.symmetryBytes = Int.lor 0 dataLen ∧ Int.lor 0 dataLen ≠ mapSize h) then
      .error .suspiciousSymmetry
    else if ¬ (mapSize h = Int.lor 0 dataLen ∧ Int.lor 0 dataLen ≠ h.symmetryBytes) then
      .error .noMapData
    else if ¬ (dataLen > h.symmetryBytes + mapSize h) then
      .error .incompleteData
    else if ¬ (dataLen < h.symmetryBytes + mapSize h) then
      .error .largerThanExpected
    else .ok ()
  else .ok ()

/-- C7: the size check passes exactly when the bytes remaining after the
header equal `symmetryBytes + mapSize` (with `mapSize = ncrs0*ncrs1*ncrs2*4`);
any other byte count fails with one of the two errors that name the
implicated component (the symmetry record or the map body). -/
theorem parse_size_check (h : DensityHeader) (dataLen : ℤ) :
    (dataLen = h.symmetryBytes + mapSize h → sizeCheck h dataLen = .ok ()) ∧
    (dataLen ≠ h.symmetryBytes + mapSize h →
      sizeCheck h dataLen = .error .suspiciousSymmetry ∨
      sizeCheck h dataLen = .error .noMapData) := by
  unfold sizeCheck
  simp only [intLorZeroLeft]
  refine ⟨fun he => ?_, fun hne => ?_⟩
  · rw [if_neg (not_not_intro he)]
  · rw [if_pos hne]
    by_cases h1 : h.symmetryBytes = dataLen ∧ dataLen ≠ mapSize h
    · rw [if_neg (not_not_intro h1)]
      have h2 : ¬ (mapSize h = dataLen ∧ dataLen ≠ h.symmetryBytes) := fun hx => h1.2 hx.1.symm
      rw [if_pos h2]
      right
      rfl
    · rw [if_pos h1]
      left
      rfl

theorem parse_size_check_witness :
    (30 : ℤ) ≠ baseHeader.symmetryBytes + mapSize baseHeader ∧
    (sizeCheck baseHeader 30 = .error .suspiciousSymmetry ∨
      sizeCheck baseHeader 30 = .error .noMapData) :=
  ⟨by decide, (parse_size_check baseHeader 30).2 (by decide)⟩

/-! ## Blobs (`DensityBlob`) -/

/-- Python exceptions the embedded operations can raise. -/
inductive PyErr
  | typeError
  | indexError
  | zeroDivisionError
  deriving DecidableEq, Repr

/-- Float division `a / b`: a zero float divisor yields a non-finite value
(`nan` for `0.0/0.0`, a signed infinity otherwise) rather than raising, so
the result is `none` exactly when `b = 0`. -/
def pyFloatDiv (a b : ℚ) : Option ℚ :=
  if b = 0 then none else some (a / b)

/-- Aggregate state a `DensityBlob` carries (`__init__`): `centroid`
components are `Option` values because the float division producing them
can yield `nan`; `crsList` is the Python set `{tuple(crs) for crs in crsList}`. -/
structure DensityBlob where
  centroid : List (Option ℚ)
  coordCenter : List ℚ
  totalDensity : ℚ
  volume : ℚ
  crsList : Finset (ℤ × ℤ × ℤ)
  deriving DecidableEq

/-- Coordinate triple viewed as the sequence the source indexes with
`point[0]`, `point[1]`, `point[2]`. -/
def tripleL (p : ℤ × ℤ × ℤ) : List ℤ :=
  [p.1, p.2.1, p.2.2]

/-- One iteration of the accumulation loop of `DensityBlob.fromCrsList`:
`weights = [weights[i] + density * pointXYZ[i] for i in range(3)]` and
`totalDen += density`, where
`density = densityMatrix[point[2], point[1], point[0]]` is abstracted as
the function `rho` on coordinate triples. -/
def blobStep (h : DensityHeader) (rho : ℤ × ℤ × ℤ → ℚ) (acc : List ℚ × ℚ)
    (point : ℤ × ℤ × ℤ) : List ℚ × ℚ :=
  ((List.range 3).map fun i =>
      acc.1.getD i 0 + rho point * (crs2xyzCoord h (tripleL point)).getD i 0,
    acc.2 + rho point)

/-- Embeds `DensityBlob.fromCrsList`.  On an empty coordinate list the
accumulators stay Python ints and `weight / totalDen` raises
`ZeroDivisionError`; on a nonempty list they are floats, so the divisions
cannot raise (a zero total yields `nan` components instead).  The blob
stores `volume = header.unitVolume * len(crsList)` and the deduplicated
coordinate set. -/
def fromCrsList (crsList : List (ℤ × ℤ × ℤ)) (h : DensityHeader)
    (rho : ℤ × ℤ × ℤ → ℚ) : Except PyErr DensityBlob :=
  let wt := crsList.foldl (blobStep h rho) ([0, 0, 0], 0)
  if crsList = [] then .error .zeroDivisionError
  else .ok
    { centroid := wt.1.map fun w => pyFloatDiv w wt.2
      coordCenter := (List.range 3).map fun i =>
        (crsList.map fun p => (crs2xyzCoord h (tripleL p)).getD i 0).sum /
          (crsList.length : ℚ)
      totalDensity := wt.2
      volume := h.unitVolume * (crsList.length : ℚ)
      crsList := crsList.toFinset }

/-- Total density `Σ density(c)` of a coordinate list (claim wording). -/
def blobTotalDensity (rho : ℤ × ℤ × ℤ → ℚ) (l : List (ℤ × ℤ × ℤ)) : ℚ :=
  (l.map rho).sum

/-- Component `i` of the weighted sum `Σ density(c) · xyz(c)` (claim wording). -/
def blobWeight (h : DensityHeader) (rho : ℤ × ℤ × ℤ → ℚ) (l : List (ℤ × ℤ × ℤ))
    (i : ℕ) : ℚ :=
  (l.map fun p => rho p * (crs2xyzCoord h (tripleL p)).getD i 0).sum

theorem blobFold_eq (h : DensityHeader) (rho : ℤ × ℤ × ℤ → ℚ)
    (l : List (ℤ × ℤ × ℤ)) (w0 w1 w2 t : ℚ) :
    l.foldl (blobStep h rho) ([w0, w1, w2], t) =
      ([w0 + blobWeight h rho l 0, w1 + blobWeight h rho l 1, w2 + blobWeight h rho l 2],
        t + blobTotalDensity rho l) := by
  induction l generalizing w0 w1 w2 t with
  | nil => simp [blobWeight, blobTotalDensity]
  | cons p rest ih =>
    have r3 : List.range 3 = [0, 1, 2] := rfl
    simp only [List.foldl_cons, blobStep, r3, List.map_cons, List.map_nil,
      List.getD_cons_zero, List.getD_cons_succ]
    rw [ih]
    simp [blobWeight, blobTotalDensity, add_assoc]

theorem fromCrsList_ok (l : List (ℤ × ℤ × ℤ)) (h : DensityHeader)
    (rho : ℤ × ℤ × ℤ → ℚ) (hne : l ≠ []) :
    fromCrsList l h rho = .ok
      { centroid := [pyFloatDiv (blobWeight h rho l 0) (blobTotalDensity rho l),
          pyFloatDiv (blobWeight h rho l 1) (blobTotalDensity rho l),
          pyFloatDiv (blobWeight h rho l 2) (blobTotalDensity rho l)]
        coordCenter := (List.range 3).map fun i =>
          (l.map fun p => (crs2xyzCoord h (tripleL p)).getD i 0).sum / (l.length : ℚ)
        totalDensity := blobTotalDensity rho l
        volume := h.unitVolume * (l.length : ℚ)
        crsList := l.toFinset } := by
  unfold fromCrsList
  rw [blobFold_eq]
  rw [if_neg hne]
  simp

/-- C8 amended: a nonempty component with zero summed density does NOT make
blob construction fail — the float division `0/0` makes every centroid
component `nan` and the blob is still returned; for nonzero total density
the blob carries `centroid = Σ(density·xyz)/totalDensity`,
`coordCenter` the unweighted mean of the member xyz, and
`volume = member count · unitVolume`. -/
theorem fromCrsList_aggregates (h : DensityHeader) (rho : ℤ × ℤ × ℤ → ℚ)
    (l : List (ℤ × ℤ × ℤ)) (hne : l ≠ []) :
    fromCrsList l h rho = .ok
      { centroid := [pyFloatDiv (blobWeight h rho l 0) (blobTotalDensity rho l),
          pyFloatDiv (blobWeight h rho l 1) (blobTotalDensity rho l),
          pyFloatDiv (blobWeight h rho l 2) (blobTotalDensity rho l)]
        coordCenter := (List.range 3).map fun i =>
          (l.map fun p => (crs2xyzCoord h (tripleL p)).getD i 0).sum / (l.length : ℚ)
        totalDensity := blobTotalDensity rho l
        volume := h.unitVolume * (l.length : ℚ)
        crsList := l.toFinset } ∧
    (blobTotalDensity rho l = 0 →
      [pyFloatDiv (blobWeight h rho l 0) (blobTotalDensity rho l),
        pyFloatDiv (blobWeight h rho l 1) (blobTotalDensity rho l),
        pyFloatDiv (blobWeight h rho l 2) (blobTotalDensity rho l)] =
        [none, none, none]) ∧
    (blobTotalDensity rho l ≠ 0 →
      [pyFloatDiv (blobWeight h rho l 0) (blobTotalDensity rho l),
        pyFloatDiv (blobWeight h rho l 1) (blobTotalDensity rho l),
        pyFloatDiv (blobWeight h rho l 2) (blobTotalDensity rho l)] =
        [some (blobWeight h rho l 0 / blobTotalDensity rho l),
          some (blobWeight h rho l 1 / blobTotalDensity rho l),
          some (blobWeight h rho l 2 / blobTotalDensity rho l)]) := by
  refine ⟨fromCrsList_ok l h rho hne, fun hz => ?_, fun hz => ?_⟩
  · simp [pyFloatDiv, hz]
  · simp [pyFloatDiv, hz]

/-- C8 counterexample: a single-voxel component of density 0 has total
density 0, yet `fromCrsList` succeeds (no `DegenerateBlobError` exists in
the code): it returns a blob whose centroid components are all `nan`. -/
theorem fromCrsList_degenerate_counterexample :
    blobTotalDensity (fun _ => 0) [((0 : ℤ), (0 : ℤ), (0 : ℤ))] = 0 ∧
    fromCrsList [((0 : ℤ), (0 : ℤ), (0 : ℤ))] baseHeader (fun _ => 0) =
      .ok { centroid := [none, none, none], coordCenter := [0, 0, 0],
            totalDensity := 0, volume := 1, crsList := {(0, 0, 0)} } := by
  have r3 : List.range 3 = [0, 1, 2] := rfl
  have hget : ∀ n : ℕ, List.getD ([0, 0, 0] : List ℤ) n 0 = 0 := by
    intro n
    match n with
    | 0 => rfl
    | 1 => rfl
    | 2 => rfl
    | (k + 3) => simp [List.getD]
  have hpy0 : ∀ j : ℤ, pyGetI [0, 0, 0] j = 0 := by
    intro j
    unfold pyGetI
    split <;> rw [hget]
  have hxyz : crs2xyzCoord baseHeader [0, 0, 0] = [0, 0, 0] := by
    rw [crs2xyzCoord, if_pos (by decide : baseHeader.alpha = baseHeader.beta ∧
      baseHeader.beta = baseHeader.gamma ∧ baseHeader.gamma = 90)]
    rw [r3]
    simp [hpy0, originL, baseHeader]
  constructor
  · simp [blobTotalDensity]
  · rw [fromCrsList_ok _ _ _ (by decide)]
    simp [blobWeight, blobTotalDensity, tripleL, hxyz, pyFloatDiv, r3]
    rfl

theorem fromCrsList_aggregates_witness :
    ([((0 : ℤ), (0 : ℤ), (0 : ℤ))] : List (ℤ × ℤ × ℤ)) ≠ [] ∧
    (fromCrsList [((0 : ℤ), (0 : ℤ), (0 : ℤ))] baseHeader (fun _ => 5) = .ok
      { centroid := [pyFloatDiv (blobWeight baseHeader (fun _ => 5) [(0, 0, 0)] 0)
            (blobTotalDensity (fun _ => 5) [(0, 0, 0)]),
          pyFloatDiv (blobWeight baseHeader (fun _ => 5) [(0, 0, 0)] 1)
            (blobTotalDensity (fun _ => 5) [(0, 0, 0)]),
          pyFloatDiv (blobWeight baseHeader (fun _ => 5) [(0, 0, 0)] 2)
            (blobTotalDensity (fun _ => 5) [(0, 0, 0)])]
        coordCenter := (List.range 3).map fun i =>
          (([((0 : ℤ), (0 : ℤ), (0 : ℤ))].map fun p =>
            (crs2xyzCoord baseHeader (tripleL p)).getD i 0).sum /
              (([((0 : ℤ), (0 : ℤ), (0 : ℤ))] : List (ℤ × ℤ × ℤ)).length : ℚ))
        totalDensity := blobTotalDensity (fun _ => 5) [(0, 0, 0)]
        volume := baseHeader.unitVolume *
          (([((0 : ℤ), (0 : ℤ), (0 : ℤ))] : List (ℤ × ℤ × ℤ)).length : ℚ)
        crsList := [((0 : ℤ), (0 : ℤ), (0 : ℤ))].toFinset } ∧
    (blobTotalDensity (fun _ => 5) [((0 : ℤ), (0 : ℤ), (0 : ℤ))] = 0 →
      [pyFloatDiv (blobWeight baseHeader (fun _ => 5) [(0, 0, 0)] 0)
          (blobTotalDensity (fun _ => 5) [(0, 0, 0)]),
        pyFloatDiv (blobWeight baseHeader (fun _ => 5) [(0, 0, 0)] 1)
          (blobTotalDensity (fun _ => 5) [(0, 0, 0)]),
        pyFloatDiv (blobWeight baseHeader (fun _ => 5) [(0, 0, 0)] 2)
          (blobTotalDensity (fun _ => 5) [(0, 0, 0)])] = [none, none, none]) ∧
    (blobTotalDensity (fun _ => 5) [((0 : ℤ), (0 : ℤ), (0 : ℤ))] ≠ 0 →
      [pyFloatDiv (blobWeight baseHeader (fun _ => 5) [(0, 0, 0)] 0)
          (blobTotalDensity (fun _ => 5) [(0, 0, 0)]),
        pyFloatDiv (blobWeight baseHeader (fun _ => 5) [(0, 0, 0)] 1)
          (blobTotalDensity (fun _ => 5) [(0, 0, 0)]),
        pyFloatDiv (blobWeight baseHeader (fun _ => 5) [(0, 0, 0)] 2)
          (blobTotalDensity (fun _ => 5) [(0, 0, 0)])] =
        [some (blobWeight baseHeader (fun _ => 5) [(0, 0, 0)] 0 /
            blobTotalDensity (fun _ => 5) [(0, 0, 0)]),
          some (blobWeight baseHeader (fun _ => 5) [(0, 0, 0)] 1 /
            blobTotalDensity (fun _ => 5) [(0, 0, 0)]),
          some (blobWeight baseHeader (fun _ => 5) [(0, 0, 0)] 2 /
            blobTotalDensity (fun _ => 5) [(0, 0, 0)])])) :=
  ⟨by decide, fromCrsList_aggregates baseHeader (fun _ => 5) [(0, 0, 0)] (by decide)⟩

/-! ## C9: blob overlap and merge -/

/-- Embeds `DensityBlob.testOverlap`:
`any(-1 <= x[0]-y[0] <= 1 and -1 <= x[1]-y[1] <= 1 and -1 <= x[2]-y[2] <= 1
for x in self.crsList for y in otherBlob.crsList)`. -/
def testOverlap (a b : DensityBlob) : Bool :=
  decide (∃ x ∈ a.crsList, ∃ y ∈ b.crsList,
    -1 ≤ x.1 - y.1 ∧ x.1 - y.1 ≤ 1 ∧ -1 ≤ x.2.1 - y.2.1 ∧ x.2.1 - y.2.1 ≤ 1 ∧
    -1 ≤ x.2.2 - y.2.2 ∧ x.2.2 - y.2.2 ≤ 1)

/-- Embeds `DensityBlob.fromCrsList` when called on a Python set (as
`merge` does): the set is iterated in arbitrary order, and since the
aggregates are sums in exact arithmetic the order does not matter, so they
are expressed as `Finset` sums; an empty set raises `ZeroDivisionError`
exactly as the empty list does. -/
def fromCrsListF (s : Finset (ℤ × ℤ × ℤ)) (h : DensityHeader)
    (rho : ℤ × ℤ × ℤ → ℚ) : Except PyErr DensityBlob :=
  if s = ∅ then .error .zeroDivisionError
  else .ok
    { centroid := (List.range 3).map fun i =>
        pyFloatDiv (∑ p ∈ s, rho p * (crs2xyzCoord h (tripleL p)).getD i 0) (∑ p ∈ s, rho p)
      coordCenter := (List.range 3).map fun i =>
        (∑ p ∈ s, (crs2xyzCoord h (tripleL p)).getD i 0) / (s.card : ℚ)
      totalDensity := ∑ p ∈ s, rho p
      volume := h.unitVolume * (s.card : ℚ)
      crsList := s }

/-- Embeds `DensityBlob.merge`: `self.crsList.update(otherBlob.crsList)`
followed by the full rebuild `DensityBlob.fromCrsList(self.crsList, ...)`
whose aggregate state replaces the original blob's.  The header and the
density matrix used by the rebuild are the ones the blob carries in the
source, passed explicitly here (the atom bookkeeping is outside the core). -/
def DensityBlob.merge (a b : DensityBlob) (h : DensityHeader)
    (rho : ℤ × ℤ × ℤ → ℚ) : Except PyErr DensityBlob :=
  fromCrsListF (a.crsList ∪ b.crsList) h rho

/-- Two grid coordinates differ by exactly 1 on one axis and by 0 on the
other two (claim wording). -/
def unitNeighbors (p q : ℤ × ℤ × ℤ) : Prop :=
  ((p.1 - q.1 = 1 ∨ p.1 - q.1 = -1) ∧ p.2.1 = q.2.1 ∧ p.2.2 = q.2.2) ∨
  (p.1 = q.1 ∧ (p.2.1 - q.2.1 = 1 ∨ p.2.1 - q.2.1 = -1) ∧ p.2.2 = q.2.2) ∨
  (p.1 = q.1 ∧ p.2.1 = q.2.1 ∧ (p.2.2 - q.2.2 = 1 ∨ p.2.2 - q.2.2 = -1))

instance (p q : ℤ × ℤ × ℤ) : Decidable (unitNeighbors p q) := by
  unfold unitNeighbors
  exact inferInstance

/-- C9: the overlap test returns true exactly when some coordinate of one
blob and some coordinate of the other differ by at most 1 on every axis;
and for two single-voxel blobs at coordinates differing by exactly 1 on one
axis and 0 on the others, the overlap test returns true and merging yields
a blob whose coordinate set has exactly 2 elements and whose volume is
`2 * unitVolume`. -/
theorem blob_overlap_merge :
    (∀ a b : DensityBlob, testOverlap a b = true ↔
      ∃ x ∈ a.crsList, ∃ y ∈ b.crsList,
        |x.1 - y.1| ≤ 1 ∧ |x.2.1 - y.2.1| ≤ 1 ∧ |x.2.2 - y.2.2| ≤ 1) ∧
    (∀ (h : DensityHeader) (rho : ℤ × ℤ × ℤ → ℚ) (a b : DensityBlob) (p q : ℤ × ℤ × ℤ),
      a.crsList = {p} → b.crsList = {q} → unitNeighbors p q →
      testOverlap a b = true ∧
      (a.merge b h rho).map (fun nb => (nb.crsList.card, nb.volume)) =
        .ok (2, 2 * h.unitVolume)) := by
  constructor
  · intro a b
    simp [testOverlap, abs_le, and_assoc]
  · intro h rho a b p q ha hb hnb
    have hpq : p ≠ q := by
      intro he
      subst he
      rcases hnb with ⟨h1 | h1, _, _⟩ | ⟨_, h1 | h1, _⟩ | ⟨_, _, h1 | h1⟩ <;> omega
    have hcard : ({p} ∪ {q} : Finset (ℤ × ℤ × ℤ)).card = 2 := by
      rw [Finset.card_union_of_disjoint (Finset.disjoint_singleton.mpr hpq)]
      simp
    refine ⟨?_, ?_⟩
    · simp only [testOverlap, decide_eq_true_eq, ha, hb, Finset.mem_singleton]
      refine ⟨p, rfl, q, rfl, ?_⟩
      rcases hnb with ⟨h1 | h1, h2, h3⟩ | ⟨h1, h2 | h2, h3⟩ | ⟨h1, h2, h3 | h3⟩ <;> omega
    · unfold DensityBlob.merge fromCrsListF
      rw [ha, hb]
      have hs : ({p} ∪ {q} : Finset (ℤ × ℤ × ℤ)) ≠ ∅ := by
        intro he
        rw [he] at hcard
        simp at hcard
      rw [if_neg hs]
      simp [Except.map, hcard, mul_comm]

/-- Single-voxel blob at the origin voxel (aggregate fields immaterial to
the overlap/merge claims). -/
def blobA : DensityBlob where
  centroid := []
  coordCenter := []
  totalDensity := 0
  volume := 0
  crsList := {(0, 0, 0)}

/-- Single-voxel blob one grid step along the column axis. -/
def blobB : DensityBlob where
  centroid := []
  coordCenter := []
  totalDensity := 0
  volume := 0
  crsList := {(1, 0, 0)}

theorem blob_overlap_merge_witness :
    blobA.crsList = {((0 : ℤ), (0 : ℤ), (0 : ℤ))} ∧
    blobB.crsList = {((1 : ℤ), (0 : ℤ), (0 : ℤ))} ∧
    unitNeighbors ((0 : ℤ), (0 : ℤ), (0 : ℤ)) ((1 : ℤ), (0 : ℤ), (0 : ℤ)) ∧
    (testOverlap blobA blobB = true ∧
      (blobA.merge blobB baseHeader (fun _ => 0)).map
          (fun nb => (nb.crsList.card, nb.volume)) =
        .ok (2, 2 * baseHeader.unitVolume)) :=
  ⟨rfl, rfl, by decide,
    blob_overlap_merge.2 baseHeader (fun _ => 0) blobA blobB (0, 0, 0) (1, 0, 0) rfl rfl
      (by decide)⟩

/-! ## C4: the sphere query (`DensityMatrix.getSphereCrsFromXyz`) -/

/-- Embeds `validCRS` when called on a TUPLE, as the sphere query does
(`itertools.product` yields tuples): the in-place wrap
`crsCoord[ind] -= ...` is item assignment on a tuple, which raises
`TypeError`, so an axis whose component lies outside `[0, extent)` raises
instead of wrapping. -/
def validCRSTuple (h : DensityHeader) : List ℕ → (ℤ × ℤ × ℤ) → Except PyErr Bool
  | [], _ => .ok true
  | ind :: rest, crs =>
    let c := (tripleL crs).getD ind 0
    let n := (ncrsL h).getD ind 0
    let i := (crsIntervalL h).getD ind 0
    if c < 0 ∨ n ≤ c then .error .typeError
    else if n ≤ c ∧ c < i then .ok false
    else validCRSTuple h rest crs

/-- The tuple variant of `validCRS` over the three axes. -/
def validCRST (h : DensityHeader) (crs : ℤ × ℤ × ℤ) : Except PyErr Bool :=
  validCRSTuple h [0, 1, 2] crs

/-- Embeds `getPointDensityFromCrs` when the argument is a tuple (the
sphere-query loop): the validity check can raise, and an out-of-bounds
numpy read would raise `IndexError`. -/
def getPointDensityFromCrsT (m : DensityMatrix) (crs : ℤ × ℤ × ℤ) : Except PyErr ℚ :=
  match validCRST m.header crs with
  | .error e => .error e
  | .ok true =>
    match densityAt m (tripleL crs) with
    | some q => .ok q
    | none => .error .indexError
  | .ok false => .ok 0

/-- Python `range(lo, hi)` as a list of integers. -/
def pyRange (lo hi : ℤ) : List ℤ :=
  (List.range (hi - lo).toNat).map fun k => lo + k

/-- The `for crs in itertools.product(...)` loop body of
`getSphereCrsFromXyz`, accumulating `crsCoordList`: keep a coordinate when
the cutoff test
`0 < densityCutoff < density or density < densityCutoff < 0 or densityCutoff == 0`
passes and the Euclidean check `np.sqrt(distSq) <= radius` holds; the
float comparison with the square root holds exactly when
`distSq ≤ radius²` and `0 ≤ radius`.  A raised exception aborts the loop. -/
def sphereLoop (m : DensityMatrix) (xyzCoord : List ℚ) (radius densityCutoff : ℚ) :
    List (ℤ × ℤ × ℤ) → List (ℤ × ℤ × ℤ) → Except PyErr (List (ℤ × ℤ × ℤ))
  | acc, [] => .ok acc
  | acc, crs :: rest =>
    match getPointDensityFromCrsT m crs with
    | .error e => .error e
    | .ok density =>
      if (0 < densityCutoff ∧ densityCutoff < density) ∨
          (density < densityCutoff ∧ densityCutoff < 0) ∨ densityCutoff = 0 then
        if ((crs2xyzCoord m.header (tripleL crs)).getD 0 0 - xyzCoord.getD 0 0) *
              ((crs2xyzCoord m.header (tripleL crs)).getD 0 0 - xyzCoord.getD 0 0) +
            ((crs2xyzCoord m.header (tripleL crs)).getD 1 0 - xyzCoord.getD 1 0) *
              ((crs2xyzCoord m.header (tripleL crs)).getD 1 0 - xyzCoord.getD 1 0) +
            ((crs2xyzCoord m.header (tripleL crs)).getD 2 0 - xyzCoord.getD 2 0) *
              ((crs2xyzCoord m.header (tripleL crs)).getD 2 0 - xyzCoord.getD 2 0) ≤
              radius * radius ∧ 0 ≤ radius then
          sphereLoop m xyzCoord radius densityCutoff (acc ++ [crs]) rest
        else sphereLoop m xyzCoord radius densityCutoff acc rest
      else sphereLoop m xyzCoord radius densityCutoff acc rest

/-- Embeds `DensityMatrix.getSphereCrsFromXyz`: the bounding box comes from
`crsCoord = xyz2crsCoord(xyzCoord)` and
`crsRadius = xyz2crsCoord(self.origin + [radius]*3)` (numpy elementwise
addition), each axis enumerated from `crsCoord - crsRadius - 1` to
`crsCoord + crsRadius + 1` exclusive, the last axis fastest. -/
def getSphereCrsFromXyz (m : DensityMatrix) (xyzCoord : List ℚ) (radius : ℚ)
    (densityCutoff : ℚ) : Except PyErr (List (ℤ × ℤ × ℤ)) :=
  let crsCoord := xyz2crsCoord m.header xyzCoord
  let crsRadius := xyz2crsCoord m.header
    [(originL m.header).getD 0 0 + radius, (originL m.header).getD 1 0 + radius,
      (originL m.header).getD 2 0 + radius]
  sphereLoop m xyzCoord radius densityCutoff []
    ((pyRange (crsCoord.getD 0 0 - crsRadius.getD 0 0 - 1)
        (crsCoord.getD 0 0 + crsRadius.getD 0 0 + 1)).flatMap fun x =>
      (pyRange (crsCoord.getD 1 0 - crsRadius.getD 1 0 - 1)
          (crsCoord.getD 1 0 + crsRadius.getD 1 0 + 1)).flatMap fun y =>
        (pyRange (crsCoord.getD 2 0 - crsRadius.getD 2 0 - 1)
            (crsCoord.getD 2 0 + crsRadius.getD 2 0 + 1)).map fun z => (x, y, z))

/-- C4: evaluated at the spec's own end-to-end scenario (orthogonal header,
center at the origin voxel, radius 1/2), the sphere query raises
`TypeError`: the padded bounding box starts at `(-1,-1,-1)`, and the
point-density query attempts the in-place wrap on the immutable tuple
`itertools.product` produced. -/
theorem getSphereCrs_boundary_raises :
    getSphereCrsFromXyz exampleMatrix [0, 0, 0] (1 / 2) (1 / 10) =
      .error .typeError := by
  have hang : exampleMatrix.header.alpha = exampleMatrix.header.beta ∧
      exampleMatrix.header.beta = exampleMatrix.header.gamma ∧
      exampleMatrix.header.gamma = 90 := by decide
  have r3 : List.range 3 = [0, 1, 2] := rfl
  have hg : gridLengthL exampleMatrix.header = [1, 1, 1] := by
    norm_num [gridLengthL, xyzLengthL, xyzIntervalL, exampleMatrix, baseHeader]
  have ho : originL exampleMatrix.header = [0, 0, 0] := rfl
  have hm2c : map2crs exampleMatrix.header = [0, 1, 2] := rfl
  have hp0 : pyRound (0 : ℚ) = 0 := by simpa using pyRound_int 0
  have hph : pyRound (1 / 2 : ℚ) = 0 := by
    unfold pyRound
    norm_num
  have hx : xyz2crsCoord exampleMatrix.header [0, 0, 0] = [0, 0, 0] := by
    unfold xyz2crsCoord
    rw [if_pos hang, r3]
    simp [hg, ho, hm2c, hp0, pyGetI]
  have hr : xyz2crsCoord exampleMatrix.header
      [(originL exampleMatrix.header).getD 0 0 + 1 / 2,
        (originL exampleMatrix.header).getD 1 0 + 1 / 2,
        (originL exampleMatrix.header).getD 2 0 + 1 / 2] = [0, 0, 0] := by
    unfold xyz2crsCoord
    rw [if_pos hang, r3]
    simp [hg, ho, hm2c, pyGetI]
    rw [← one_div]
    exact hph
  have hpt : getPointDensityFromCrsT exampleMatrix (-1, -1, -1) = .error .typeError := rfl
  have hbox : ((pyRange (-1) 1).flatMap fun x =>
      (pyRange (-1) 1).flatMap fun y => (pyRange (-1) 1).map fun z => (x, y, z)) =
      [(-1, -1, -1), (-1, -1, 0), (-1, 0, -1), (-1, 0, 0),
        (0, -1, -1), (0, -1, 0), (0, 0, -1), (0, 0, 0)] := by
    decide
  simp only [getSphereCrsFromXyz]
  rw [hx, hr]
  norm_num
  rw [hbox]
  simp [sphereLoop, hpt]
